import Mathlib

/-!
Shallow embedding of the chimera admission-webhook library
(module github.com/chimera-kube/chimera, go 1.15).

The embedding translates the pure decision logic of the Go sources:

* pkg/chimera/admission.go: the per-request validation pipeline
  (performValidation), the handler-installation loop
  (setupAdmissionWebhooks), the registration-object builder
  (asValidatingAdmissionRegistration) and the reconcile loop of
  registerAdmissionWebhooks.
* pkg/chimera/cert.go: the SAN classification of generateCert and the
  PEM encoders pemEncodeCertificate / pemEncodePrivateKey.
* the WebhookResponse builder API (NewAllowRequest, NewRejectRequest,
  WithCode, WithMessage).

External collaborators (encoding/json, the Kubernetes registry client,
crypto randomness) are passed in as explicit function parameters or
outcome traces, so every definition stays executable.

Machine integers: status codes are int32 in Go; all values handled by
this library (HTTP-style codes such as 403) are far from the int32
bounds, so they are modelled as Int with no wrap-around.
-/

namespace Chimera

/-- Embeds the Go struct WebhookResponse (Allowed bool, Code *int32,
RejectionMessage *string); Go nil pointers become none. -/
structure WebhookResponse where
  Allowed : Bool
  Code : Option Int
  RejectionMessage : Option String
deriving DecidableEq, Repr

/-- Embeds NewAllowRequest: a response that allows, with nil code and
message. -/
def NewAllowRequest : WebhookResponse :=
  { Allowed := true, Code := none, RejectionMessage := none }

/-- Embeds NewRejectRequest: a response that denies, with nil code and
message. -/
def NewRejectRequest : WebhookResponse :=
  { Allowed := false, Code := none, RejectionMessage := none }

/-- Embeds WebhookResponse.WithCode: the code is attached only when the
response is not allowed; otherwise the receiver is returned unchanged. -/
def WebhookResponse.WithCode (r : WebhookResponse) (code : Int) : WebhookResponse :=
  if !r.Allowed then { r with Code := some code } else r

/-- Embeds WebhookResponse.WithMessage: the message is attached only when
the response is not allowed; otherwise the receiver is returned
unchanged. -/
def WebhookResponse.WithMessage (r : WebhookResponse) (message : String) : WebhookResponse :=
  if !r.Allowed then { r with RejectionMessage := some message } else r

/-- Responses reachable through the public builder API of the library:
the two constructors followed by any sequence of WithCode / WithMessage
calls. -/
inductive BuilderReachable : WebhookResponse → Prop
  | allow : BuilderReachable NewAllowRequest
  | reject : BuilderReachable NewRejectRequest
  | withCode (r : WebhookResponse) (c : Int) :
      BuilderReachable r → BuilderReachable (r.WithCode c)
  | withMessage (r : WebhookResponse) (m : String) :
      BuilderReachable r → BuilderReachable (r.WithMessage m)

/-- Embeds k8s.io AdmissionRequest restricted to the single field the
library reads (UID, the correlation identifier). -/
structure AdmissionRequest where
  uid : String
deriving DecidableEq, Repr

/-- Embeds metav1.Status restricted to the two fields the library writes
(Code int32, Message string); zero values are the Go zero values. -/
structure Status where
  code : Int
  message : String
deriving DecidableEq, Repr

/-- Embeds the JSON rendering of the Code field of metav1.Status, whose
json tag carries omitempty: a zero code is omitted from the encoded
response. -/
def statusJsonCode (s : Status) : Option Int :=
  if s.code = 0 then none else some s.code

/-- Embeds the JSON rendering of the Message field of metav1.Status,
whose json tag carries omitempty: an empty message is omitted from the
encoded response. -/
def statusJsonMessage (s : Status) : Option String :=
  if s.message = "" then none else some s.message

/-- Embeds admissionv1.AdmissionResponse restricted to the fields
performValidation sets: UID, Allowed, Result. -/
structure AdmissionResponse where
  uid : String
  allowed : Bool
  result : Status
deriving DecidableEq, Repr

/-- Embeds admissionv1.AdmissionReview: a Request pointer and a Response
pointer, either of which may be nil. -/
structure AdmissionReview where
  request : Option AdmissionRequest
  response : Option AdmissionResponse
deriving DecidableEq, Repr

/-- Embeds the Result construction of performValidation: Result starts as
an empty metav1.Status and Code / Message are copied from the callback
response only when the corresponding pointer is non-nil, so a nil
pointer leaves the Go zero value. -/
def responseResult (r : WebhookResponse) : Status :=
  { code := r.Code.getD 0, message := r.RejectionMessage.getD "" }

/-- Observable outcome of one HTTP exchange: the status code written, the
Content-Type header if one was set, and the admission review handed to
json.Marshal when a body was written (none on the empty 500 body). -/
structure HttpResponse where
  status : Nat
  contentType : Option String
  body : Option AdmissionReview
deriving DecidableEq, Repr

/-- Embeds the internalServerError helper of admission.go: it writes
status 500 and nothing else (no Content-Type header, no body). -/
def internalServerError : HttpResponse :=
  { status := 500, contentType := none, body := none }

/-- Embeds performValidation of admission.go. The json codec is passed in
as unmarshal (none = json.Unmarshal error) and marshalOk (false =
json.Marshal error); the callback returns Except, mirroring the Go
(WebhookResponse, error) pair. The pipeline: unmarshal the body (500 on
failure), invoke the callback on the embedded request pointer (500 on
failure), then build the response reading admissionReview.Request.UID.
That read does not check the Request pointer for nil; on a review with
no request the Go code dereferences a nil pointer and panics, which the
model renders as the overall result none (no response is written). On
success the review with the response attached is marshalled and written
with status 200 and Content-Type application/json; a marshal failure
yields the same 500. -/
def performValidation (unmarshal : String → Option AdmissionReview)
    (marshalOk : AdmissionReview → Bool)
    (callback : Option AdmissionRequest → Except String WebhookResponse)
    (body : String) : Option HttpResponse :=
  match unmarshal body with
  | none => some internalServerError
  | some review =>
    match callback review.request with
    | .error _ => some internalServerError
    | .ok webhookResponse =>
      match review.request with
      | none => none
      | some req =>
        let admissionResponse : AdmissionResponse :=
          { uid := req.uid
            allowed := webhookResponse.Allowed
            result := responseResult webhookResponse }
        let finalReview : AdmissionReview :=
          { review with response := some admissionResponse }
        if marshalOk finalReview then
          some { status := 200
                 contentType := some "application/json"
                 body := some finalReview }
        else
          some internalServerError

/-- Embeds the per-request dispatch of the HTTP server: each request is
handled by an independent invocation of performValidation over the same
read-only configuration, so a list of bodies maps to a list of
outcomes. -/
def handleRequests (unmarshal : String → Option AdmissionReview)
    (marshalOk : AdmissionReview → Bool)
    (callback : Option AdmissionRequest → Except String WebhookResponse)
    (bodies : List String) : List (Option HttpResponse) :=
  bodies.map (performValidation unmarshal marshalOk callback)

/-- Embeds the Go struct Webhook of admission.go. The callback and the
rule payload are never inspected by the modelled code, only carried, so
they stay type parameters (C is the callback type, R the rule type). -/
structure Webhook (C R : Type) where
  Rules : List R
  Callback : C
  FailurePolicy : String
  Name : String
  Path : String

/-- Embeds AdmissionConfig restricted to the fields read by
setupAdmissionWebhooks and asValidatingAdmissionRegistration: Name,
KubeNamespace, KubeService, CallbackHost, CallbackPort, Webhooks. The
certificate-file, extra-SAN and logger fields do not influence those two
functions. -/
structure AdmissionConfig (C R : Type) where
  Name : String
  KubeNamespace : String
  KubeService : String
  CallbackHost : String
  CallbackPort : Nat
  Webhooks : List (Webhook C R)

/-- Result of the handler-installation loop of setupAdmissionWebhooks:
the handler paths registered with http.HandleFunc, in order, and the
value held by the range loop variable once the loop has finished. The
module declares go 1.15, so the range statement introduces one single
loop variable shared by all iterations; each HandleFunc closure captures
that variable and reads it only when a request arrives, which is after
the loop has completed, while the path argument of HandleFunc is
evaluated eagerly inside the iteration. -/
structure SetupResult (C R : Type) where
  handlerPaths : List String
  loopVar : Option (Webhook C R)

/-- Embeds the body of the range loop in setupAdmissionWebhooks. The
iteration assigns the i-th list element to the shared loop variable (a
copy of the slice element), replaces its empty Path with a generated
validate path, and registers a handler under the current value of that
path. The generated path is modelled by applying gen to the iteration
index, one fresh value per iteration. The input list, that is
admissionConfig.Webhooks, is never written back, so the Path assignment
is invisible outside the loop. -/
def setupLoop {C R : Type} (gen : Nat → String) :
    Nat → Option (Webhook C R) → List (Webhook C R) → SetupResult C R
  | _, v, [] => { handlerPaths := [], loopVar := v }
  | i, _, w :: ws =>
    let w2 := if w.Path = "" then { w with Path := gen i } else w
    let rest := setupLoop gen (i + 1) (some w2) ws
    { handlerPaths := w2.Path :: rest.handlerPaths, loopVar := rest.loopVar }

/-- Embeds setupAdmissionWebhooks of admission.go: runs the installation
loop over admissionConfig.Webhooks starting from iteration 0 with the
loop variable not yet assigned. -/
def setupAdmissionWebhooks {C R : Type} (gen : Nat → String)
    (admissionConfig : AdmissionConfig C R) : SetupResult C R :=
  setupLoop gen 0 none admissionConfig.Webhooks

/-- Dispatch of an incoming request: http.ServeMux routes a request on a
registered path to the closure installed for it, and every such closure
invokes performValidation with webhook.Callback where webhook is the
shared loop variable, read at request time, i.e. holding its final
value. A request on an unregistered path reaches no callback. -/
def installedCallbackFor {C R : Type} (s : SetupResult C R) (path : String) :
    Option C :=
  if s.handlerPaths.contains path then s.loopVar.map (fun w => w.Callback) else none

/-- Embeds admissionregistrationv1.ServiceReference restricted to the
fields the library sets; nsName renders the Namespace field, whose Go
name is a Lean keyword. -/
structure ServiceRef where
  nsName : String
  name : String
  path : String
  port : Nat
deriving DecidableEq, Repr

/-- Embeds admissionregistrationv1.WebhookClientConfig: the CA bundle
plus either a literal URL or a service reference. -/
structure WebhookClientConfig where
  caBundle : String
  url : Option String
  service : Option ServiceRef
deriving DecidableEq, Repr

/-- Embeds admissionregistrationv1.ValidatingWebhook restricted to the
fields asValidatingAdmissionRegistration sets. -/
structure ValidatingWebhook (R : Type) where
  name : String
  clientConfig : WebhookClientConfig
  rules : List R
  sideEffectsNone : Bool
  admissionReviewVersions : List String
  failurePolicy : Option String

/-- Embeds admissionregistrationv1.ValidatingWebhookConfiguration
restricted to the fields the library sets: the object name and the
webhook entries. -/
structure ValidatingWebhookConfiguration (R : Type) where
  name : String
  webhooks : List (ValidatingWebhook R)

/-- Embeds net.JoinHostPort: hosts containing a colon (IPv6 literals)
are bracketed. -/
def joinHostPort (host port : String) : String :=
  if host.data.contains ':' then "[" ++ host ++ "]:" ++ port
  else host ++ ":" ++ port

/-- Embeds the String rendering of the url.URL value built by
asValidatingAdmissionRegistration: scheme https, host from
net.JoinHostPort, then the path; the path charset in play (empty or a
slash followed by an UUID segment) needs no escaping. -/
def urlString (host : String) (port : Nat) (path : String) : String :=
  "https://" ++ joinHostPort host (toString port) ++ path

/-- Embeds one iteration of the builder loop in
asValidatingAdmissionRegistration at index i: the callback address is a
service reference (namespace + service + path + port) when both
KubeNamespace and KubeService are set, else the literal HTTPS URL; the
entry name defaults to rule-i when unset and is then suffixed with the
admission-config name; an empty FailurePolicy stays nil. -/
def buildValidatingWebhook {C R : Type} (admissionConfig : AdmissionConfig C R)
    (caBundle : String) (i : Nat) (webhook : Webhook C R) : ValidatingWebhook R :=
  let admissionCallback := urlString admissionConfig.CallbackHost
    admissionConfig.CallbackPort webhook.Path
  let clientConfig : WebhookClientConfig :=
    if admissionConfig.KubeNamespace ≠ "" ∧ admissionConfig.KubeService ≠ "" then
      { caBundle := caBundle
        url := none
        service := some { nsName := admissionConfig.KubeNamespace
                          name := admissionConfig.KubeService
                          path := webhook.Path
                          port := admissionConfig.CallbackPort } }
    else
      { caBundle := caBundle, url := some admissionCallback, service := none }
  let baseName := if webhook.Name = "" then "rule-" ++ toString i else webhook.Name
  { name := baseName ++ "." ++ admissionConfig.Name
    clientConfig := clientConfig
    rules := webhook.Rules
    sideEffectsNone := true
    admissionReviewVersions := ["v1"]
    failurePolicy := if webhook.FailurePolicy = "" then none
      else some webhook.FailurePolicy }

/-- Embeds the indexed for loop of asValidatingAdmissionRegistration,
building one ValidatingWebhook per config webhook, counting indices from
k. -/
def buildWebhooks {C R : Type} (admissionConfig : AdmissionConfig C R)
    (caBundle : String) : Nat → List (Webhook C R) → List (ValidatingWebhook R)
  | _, [] => []
  | k, w :: ws =>
    buildValidatingWebhook admissionConfig caBundle k w
      :: buildWebhooks admissionConfig caBundle (k + 1) ws

/-- Embeds WebhookList.asValidatingAdmissionRegistration of admission.go:
the registration object carries the admission-config name and one entry
per webhook, indexed from 0. -/
def asValidatingAdmissionRegistration {C R : Type}
    (admissionConfig : AdmissionConfig C R) (caBundle : String) :
    ValidatingWebhookConfiguration R :=
  { name := admissionConfig.Name
    webhooks := buildWebhooks admissionConfig caBundle 0 admissionConfig.Webhooks }

/-- Outcome of one Delete call against the cluster registry: success, a
not-found error (apierrors.IsNotFound holds), or any other error. -/
inductive DeleteOutcome where
  | ok
  | notFound
  | otherErr (msg : String)
deriving DecidableEq, Repr

/-- Outcomes the registry client produces during one iteration of the
reconcile loop of registerAdmissionWebhooks: the Delete outcome, the
List outcome (names of the registered configurations, or an error), and
the Create outcome (none = success). -/
structure CycleOutcome where
  del : DeleteOutcome
  list : Except String (List String)
  create : Option String
deriving Repr

/-- Severity levels of the Logger interface calls the reconcile loop
makes. -/
inductive LogLevel where
  | debug
  | info
  | error
deriving DecidableEq, Repr

/-- One log line emitted through the Logger interface. -/
structure LogEntry where
  level : LogLevel
  msg : String
deriving DecidableEq, Repr

/-- Embeds the log lines of one iteration of the reconcile loop in
registerAdmissionWebhooks: a Delete error is logged through Errorf only
when it is not a not-found error; a successful List with a non-empty
result logs the advisory warning through Infof plus one Debugf line per
entry, a failed List logs through Errorf; a successful Create logs the
installed message through Infof, a failed Create logs through Errorf. -/
def cycleLogs (admissionName : String) (nWebhooks : Nat) (c : CycleOutcome) :
    List LogEntry :=
  (match c.del with
    | .otherErr m =>
      [{ level := .error, msg := "Could not cleanup webhook prior to start: " ++ m }]
    | _ => [])
  ++ (match c.list with
    | .ok items =>
      if items.length ≠ 0 then
        { level := .info
          msg := "WARNING: there are " ++ toString items.length
            ++ " webhook(s) already registered besides this admission that could reject requests" }
          :: items.map (fun n => { level := .debug, msg := "  - " ++ n })
      else []
    | .error m =>
      [{ level := .error, msg := "Could not list current validation webhooks: " ++ m }])
  ++ (match c.create with
    | none =>
      [{ level := .info
         msg := "webhook for admission " ++ admissionName
           ++ " correctly installed -- " ++ toString nWebhooks
           ++ " hook(s) active for this admission" }]
    | some m => [{ level := .error, msg := "could not register webhook: " ++ m }])

/-- Embeds the unbounded for loop of registerAdmissionWebhooks, driven by
the trace of registry-client outcomes, one CycleOutcome per iteration.
Each iteration deletes, lists and creates; only a successful Create
breaks out of the loop, after which the surrounding function returns
nil, so termination is always success with no error. The result is the
accumulated log and the number of delete/create cycles performed; none
means the trace was exhausted with the loop still running. -/
def registerLoop (admissionName : String) (nWebhooks : Nat) :
    List CycleOutcome → Option (List LogEntry × Nat)
  | [] => none
  | c :: rest =>
    let lg := cycleLogs admissionName nWebhooks c
    match c.create with
    | none => some (lg, 1)
    | some _ =>
      match registerLoop admissionName nWebhooks rest with
      | none => none
      | some (lgs, k) => some (lg ++ lgs, k + 1)

/-- Embeds net.IPv4: the 16-byte v4-in-v6 representation Go uses for an
IPv4 address. -/
def ipv4 (a b c d : Nat) : List Nat :=
  [0, 0, 0, 0, 0, 0, 0, 0, 0, 0, 255, 255, a, b, c, d]

/-- Embeds net.IPv6loopback: the 16-byte address with a single final
one. -/
def ipv6loopback : List Nat :=
  [0, 0, 0, 0, 0, 0, 0, 0, 0, 0, 0, 0, 0, 0, 0, 1]

/-- Embeds the SAN classification of generateCert in cert.go, with
net.ParseIP passed in as parseIP (none = the string is not an IP
literal). The host switch: localhost maps to both loopback IPs plus the
host itself as DNS name; 127.0.0.1 maps to both loopback IPs plus the
DNS name localhost; any other host becomes a single IP SAN when it
parses as an IP, else a single DNS SAN. Each extra SAN is then appended
to the IP list when it parses as an IP and to the DNS list otherwise.
The result is the pair (DNSNames, IPAddresses) placed in the
certificate. -/
def certSANs (parseIP : String → Option (List Nat)) (host : String)
    (extraSANs : List String) : List String × List (List Nat) :=
  let base : List String × List (List Nat) :=
    if host = "localhost" then
      ([host], [ipv4 127 0 0 1, ipv6loopback])
    else if host = "127.0.0.1" then
      (["localhost"], [ipv4 127 0 0 1, ipv6loopback])
    else
      match parseIP host with
      | some hostIp => ([], [hostIp])
      | none => ([host], [])
  extraSANs.foldl
    (fun acc san =>
      match parseIP san with
      | none => (acc.1 ++ [san], acc.2)
      | some sanIp => (acc.1, acc.2 ++ [sanIp]))
    base

/-- Embeds the standard base64 alphabet used by base64.StdEncoding: value
n below 64 maps to its alphabet character. -/
def b64Char (n : Nat) : Char :=
  if n < 26 then Char.ofNat (65 + n)
  else if n < 52 then Char.ofNat (97 + (n - 26))
  else if n < 62 then Char.ofNat (48 + (n - 52))
  else if n = 62 then '+'
  else '/'

/-- Embeds the reverse base64 alphabet lookup: an alphabet character maps
to its six-bit value, anything else to none. -/
def b64CharVal (c : Char) : Option Nat :=
  let k := c.toNat
  if 65 ≤ k ∧ k ≤ 90 then some (k - 65)
  else if 97 ≤ k ∧ k ≤ 122 then some (26 + (k - 97))
  else if 48 ≤ k ∧ k ≤ 57 then some (52 + (k - 48))
  else if c = '+' then some 62
  else if c = '/' then some 63
  else none

/-- Characters that may occur in a base64 body: alphabet characters and
the padding sign. -/
def isB64Sym (c : Char) : Bool :=
  c = '=' || (b64CharVal c).isSome

/-- Embeds base64.StdEncoding encoding over a byte list: three bytes
become four alphabet characters, a two-byte remainder three characters
plus one padding sign, a one-byte remainder two characters plus two
padding signs. -/
def b64Encode : List Nat → List Char
  | [] => []
  | [a] => [b64Char (a / 4), b64Char (a % 4 * 16), '=', '=']
  | [a, b] => [b64Char (a / 4), b64Char (a % 4 * 16 + b / 16), b64Char (b % 16 * 4), '=']
  | a :: b :: c :: rest =>
    b64Char (a / 4) :: b64Char (a % 4 * 16 + b / 16)
      :: b64Char (b % 16 * 4 + c / 64) :: b64Char (c % 64) :: b64Encode rest

/-- Embeds base64.StdEncoding decoding over the character list of a
base64 body: four characters at a time, with padding signs allowed only
in the final chunk (one for a two-byte remainder, two for a one-byte
remainder), failing on anything outside the alphabet. -/
def b64Decode : List Char → Option (List Nat)
  | [] => some []
  | c1 :: c2 :: c3 :: c4 :: rest =>
    match b64CharVal c1, b64CharVal c2 with
    | some v1, some v2 =>
      if c3 = '=' then
        if c4 = '=' ∧ rest = [] then some [v1 * 4 + v2 / 16] else none
      else
        match b64CharVal c3 with
        | none => none
        | some v3 =>
          if c4 = '=' then
            if rest = [] then some [v1 * 4 + v2 / 16, v2 % 16 * 16 + v3 / 4]
            else none
          else
            match b64CharVal c4, b64Decode rest with
            | some v4, some bs =>
              some ((v1 * 4 + v2 / 16) :: (v2 % 16 * 16 + v3 / 4)
                :: (v3 % 4 * 64 + v4) :: bs)
            | _, _ => none
    | _, _ => none
  | _ => none

/-- Embeds the lineBreaker of encoding/pem: the base64 text is written in
lines of 64 characters, each line (the final partial one included)
followed by a newline; empty input produces no line at all. -/
def wrapChunks (s : List Char) : List Char :=
  if s = [] then []
  else if s.length ≤ 64 then s ++ ['\n']
  else s.take 64 ++ '\n' :: wrapChunks (s.drop 64)
termination_by s.length
decreasing_by simp [List.length_drop]; omega

/-- Scanner collecting the base64 body of a PEM block: newlines are
skipped, alphabet and padding characters are collected, and scanning
stops at the first other character, returning the collected body and the
remainder. -/
def takeB64 : List Char → List Char × List Char
  | [] => ([], [])
  | c :: rest =>
    if c = '\n' then takeB64 rest
    else if isB64Sym c then
      let p := takeB64 rest
      (c :: p.1, p.2)
    else ([], c :: rest)

/-- Matcher for a literal character sequence at the front of the input,
returning the remainder on success. -/
def expectChars : List Char → List Char → Option (List Char)
  | [], s => some s
  | _ :: _, [] => none
  | p :: ps, c :: cs => if c = p then expectChars ps cs else none

/-- Scanner for the block type of a PEM header: collects characters up to
the first dash. -/
def takeType : List Char → Option (List Char × List Char)
  | [] => none
  | c :: rest =>
    if c = '-' then some ([], c :: rest)
    else
      match takeType rest with
      | none => none
      | some (t, r) => some (c :: t, r)

/-- Opening marker of a PEM block up to the type. -/
def beginMarker : List Char := "-----BEGIN ".toList

/-- Closing marker of a PEM block up to the type. -/
def endMarker : List Char := "-----END ".toList

/-- Dashes plus newline closing a PEM marker line. -/
def dashesNl : List Char := "-----\n".toList

/-- Embeds pem.Encode into a byte buffer for a block with the given type,
no headers and the given bytes: the BEGIN line, the wrapped base64 body
and the END line. -/
def pemEncodeBlock (ty : List Char) (bytes : List Nat) : List Char :=
  beginMarker ++ ty ++ dashesNl
    ++ wrapChunks (b64Encode bytes)
    ++ endMarker ++ ty ++ dashesNl

/-- Embeds pemEncodeCertificate of cert.go: pem.Encode with type
CERTIFICATE into a fresh bytes.Buffer, whose writes cannot fail, so the
error result is always nil. -/
def pemEncodeCertificate (certificate : List Nat) : Except String (List Char) :=
  .ok (pemEncodeBlock "CERTIFICATE".toList certificate)

/-- Embeds pemEncodePrivateKey of cert.go: pem.Encode with type RSA
PRIVATE KEY into a fresh bytes.Buffer, whose writes cannot fail, so the
error result is always nil. -/
def pemEncodePrivateKey (privateKey : List Nat) : Except String (List Char) :=
  .ok (pemEncodeBlock "RSA PRIVATE KEY".toList privateKey)

/-- Embeds pem.Decode on the texts pem.Encode produces: match the BEGIN
line, read the type, collect the base64 body across line breaks, match
the END line for the same type, and base64-decode the body into the DER
bytes. -/
def pemDecode (s : List Char) : Option (List Char × List Nat) := do
  let s1 ← expectChars beginMarker s
  let (ty, s2) ← takeType s1
  let s3 ← expectChars dashesNl s2
  let p := takeB64 s3
  let s5 ← expectChars endMarker p.2
  let s6 ← expectChars ty s5
  let s7 ← expectChars dashesNl s6
  if s7 = [] then
    let bytes ← b64Decode p.1
    pure (ty, bytes)
  else none

/-- Demo configuration from the spec scenario: admission-config name demo
with two unnamed webhooks. -/
def demoConfig : AdmissionConfig Unit Unit :=
  { Name := "demo"
    KubeNamespace := ""
    KubeService := ""
    CallbackHost := "localhost"
    CallbackPort := 8443
    Webhooks :=
      [ { Rules := [], Callback := (), FailurePolicy := "", Name := "", Path := "/a" },
        { Rules := [], Callback := (), FailurePolicy := "", Name := "", Path := "/b" } ] }

/-- Demo IP parser used to instantiate theorems at concrete inputs: it
recognises exactly the documentation address 203.0.113.5. -/
def demoParseIP : String → Option (List Nat) :=
  fun s => if s = "203.0.113.5" then some (ipv4 203 0 113 5) else none

theorem builderReachable_allowed_fields {r : WebhookResponse}
    (h : BuilderReachable r) :
    r.Allowed = true → r.Code = none ∧ r.RejectionMessage = none := by
  induction h with
  | allow => intro _; exact ⟨rfl, rfl⟩
  | reject => intro ha; simp [NewRejectRequest] at ha
  | withCode r c _ ih =>
    intro ha
    by_cases hAl : r.Allowed
    · simpa [WebhookResponse.WithCode, hAl] using ih hAl
    · simp [WebhookResponse.WithCode, hAl] at ha
  | withMessage r m _ ih =>
    intro ha
    by_cases hAl : r.Allowed
    · simpa [WebhookResponse.WithMessage, hAl] using ih hAl
    · simp [WebhookResponse.WithMessage, hAl] at ha

/-- C4: for every decision with allowed = true, WithCode and WithMessage
return the decision unchanged; for every decision reachable through the
builder API that allows, the encoded admission-review response carries
no status code and no rejection message, and a code or message appears
in the encoded response only when the decision denied the request. -/
theorem c4_allowed_drops_code_and_message :
    (∀ (r : WebhookResponse) (c : Int), r.Allowed = true → r.WithCode c = r) ∧
    (∀ (r : WebhookResponse) (m : String), r.Allowed = true → r.WithMessage m = r) ∧
    (∀ r : WebhookResponse, BuilderReachable r → r.Allowed = true →
      statusJsonCode (responseResult r) = none ∧
        statusJsonMessage (responseResult r) = none) ∧
    (∀ r : WebhookResponse, BuilderReachable r →
      (statusJsonCode (responseResult r) ≠ none ∨
        statusJsonMessage (responseResult r) ≠ none) →
      r.Allowed = false) := by
  refine ⟨?_, ?_, ?_, ?_⟩
  · intro r c ha; simp [WebhookResponse.WithCode, ha]
  · intro r m ha; simp [WebhookResponse.WithMessage, ha]
  · intro r hr ha
    obtain ⟨hc, hm⟩ := builderReachable_allowed_fields hr ha
    simp [statusJsonCode, statusJsonMessage, responseResult, hc, hm]
  · intro r hr hne
    by_cases ha : r.Allowed
    · obtain ⟨hc, hm⟩ := builderReachable_allowed_fields hr ha
      simp [statusJsonCode, statusJsonMessage, responseResult, hc, hm] at hne
    · simpa using ha

/-- Witness for C4 at the concrete allowed decision. -/
theorem c4_witness :
    NewAllowRequest.WithCode 403 = NewAllowRequest ∧
    NewAllowRequest.WithMessage "denied" = NewAllowRequest ∧
    (statusJsonCode (responseResult NewAllowRequest) = none ∧
      statusJsonMessage (responseResult NewAllowRequest) = none) :=
  ⟨c4_allowed_drops_code_and_message.1 NewAllowRequest 403 rfl,
   c4_allowed_drops_code_and_message.2.1 NewAllowRequest "denied" rfl,
   c4_allowed_drops_code_and_message.2.2.1 NewAllowRequest BuilderReachable.allow rfl⟩

theorem buildWebhooks_getElem {C R : Type} (cfg : AdmissionConfig C R)
    (cb : String) :
    ∀ (ws : List (Webhook C R)) (k i : Nat),
      (buildWebhooks cfg cb k ws)[i]?
        = ws[i]?.map (buildValidatingWebhook cfg cb (k + i)) := by
  intro ws
  induction ws with
  | nil => intro k i; simp [buildWebhooks]
  | cons w ws ih =>
    intro k i
    cases i with
    | zero => simp [buildWebhooks]
    | succ n =>
      have hkn : k + (n + 1) = (k + 1) + n := by omega
      simp [buildWebhooks, ih (k + 1) n, hkn]

/-- C9: the i-th entry of the built registration object is named with the
given webhook name, defaulted to rule-i when unset, suffixed with a dot
and the admission-config name; for config name demo and two unnamed
webhooks the entries are named rule-0.demo and rule-1.demo. -/
theorem c9_registration_entry_names {C R : Type} :
    (∀ (cfg : AdmissionConfig C R) (caBundle : String) (i : Nat)
        (w : Webhook C R),
      cfg.Webhooks[i]? = some w →
      ((asValidatingAdmissionRegistration cfg caBundle).webhooks[i]?).map
          (fun v => v.name)
        = some ((if w.Name = "" then "rule-" ++ toString i else w.Name)
            ++ "." ++ cfg.Name)) ∧
    ((asValidatingAdmissionRegistration demoConfig "ca").webhooks.map
        (fun v => v.name) = ["rule-0.demo", "rule-1.demo"]) := by
  constructor
  · intro cfg cb i w hw
    simp [asValidatingAdmissionRegistration, buildWebhooks_getElem, hw,
      buildValidatingWebhook]
  · rfl

/-- Witness for C9 at the demo configuration. -/
theorem c9_witness :
    demoConfig.Webhooks[0]?
        = some { Rules := [], Callback := (), FailurePolicy := ""
                 Name := "", Path := "/a" } ∧
    ((asValidatingAdmissionRegistration demoConfig "ca").webhooks[0]?).map
        (fun v => v.name) = some "rule-0.demo" := by
  refine ⟨rfl, ?_⟩
  have h := (c9_registration_entry_names (C := Unit) (R := Unit)).1 demoConfig
    "ca" 0
    { Rules := [], Callback := (), FailurePolicy := "", Name := "", Path := "/a" }
    rfl
  simpa using h

/-- C6: on the outcome trace where Create fails twice then succeeds with
a not-found Delete each time, the reconcile loop performs exactly three
delete/create cycles and terminates (the surrounding function then
returns nil); any cycle with a successful Create terminates in one cycle
whatever the Delete and List outcomes were; a failed Create merely
recurses, whatever the Delete and List outcomes were; and a not-found
Delete produces exactly the log of a successful Delete, so it is never
treated as an error. -/
theorem c6_reconcile_retry :
    (registerLoop "demo" 1
        [ { del := .notFound, list := .ok [], create := some "e1" },
          { del := .notFound, list := .ok [], create := some "e2" },
          { del := .notFound, list := .ok [], create := none } ]
      = some
        ([ { level := .error, msg := "could not register webhook: e1" },
           { level := .error, msg := "could not register webhook: e2" },
           { level := .info
             msg := "webhook for admission demo correctly installed -- 1 hook(s) active for this admission" } ],
          3)) ∧
    (∀ (name : String) (n : Nat) (del : DeleteOutcome)
        (lst : Except String (List String)) (rest : List CycleOutcome),
      registerLoop name n ({ del := del, list := lst, create := none } :: rest)
        = some (cycleLogs name n { del := del, list := lst, create := none }, 1)) ∧
    (∀ (name : String) (n : Nat) (del : DeleteOutcome)
        (lst : Except String (List String)) (m : String)
        (rest : List CycleOutcome),
      registerLoop name n ({ del := del, list := lst, create := some m } :: rest)
        = (registerLoop name n rest).map
            (fun p =>
              (cycleLogs name n { del := del, list := lst, create := some m }
                ++ p.1, p.2 + 1))) ∧
    (∀ (name : String) (n : Nat) (lst : Except String (List String))
        (cr : Option String),
      cycleLogs name n { del := .notFound, list := lst, create := cr }
        = cycleLogs name n { del := .ok, list := lst, create := cr }) := by
  refine ⟨rfl, ?_, ?_, ?_⟩
  · intro name n del lst rest; rfl
  · intro name n del lst m rest
    simp only [registerLoop]
    cases registerLoop name n rest with
    | none => rfl
    | some p => rfl
  · intro name n lst cr; rfl

/-- C5: the SAN classification of generateCert. Hosts localhost and
127.0.0.1 both yield the SAN set of both loopback IPs plus the DNS name
localhost; any other host that parses as an IP yields exactly that IP
SAN and no DNS SAN; any other host yields exactly that DNS SAN and no IP
SAN; each extra SAN is appended as an IP SAN when it parses as an IP and
as a DNS SAN otherwise. -/
theorem c5_san_classification :
    (∀ p : String → Option (List Nat),
      certSANs p "localhost" [] = (["localhost"], [ipv4 127 0 0 1, ipv6loopback]) ∧
      certSANs p "127.0.0.1" [] = certSANs p "localhost" []) ∧
    (∀ (p : String → Option (List Nat)) (host : String) (ip : List Nat),
      host ≠ "localhost" → host ≠ "127.0.0.1" → p host = some ip →
      certSANs p host [] = ([], [ip])) ∧
    (∀ (p : String → Option (List Nat)) (host : String),
      host ≠ "localhost" → host ≠ "127.0.0.1" → p host = none →
      certSANs p host [] = ([host], [])) ∧
    (∀ (p : String → Option (List Nat)) (host san : String)
        (extras : List String) (ip : List Nat),
      p san = some ip →
      certSANs p host (extras ++ [san])
        = ((certSANs p host extras).1, (certSANs p host extras).2 ++ [ip])) ∧
    (∀ (p : String → Option (List Nat)) (host san : String)
        (extras : List String),
      p san = none →
      certSANs p host (extras ++ [san])
        = ((certSANs p host extras).1 ++ [san], (certSANs p host extras).2)) := by
  refine ⟨?_, ?_, ?_, ?_, ?_⟩
  · intro p; exact ⟨rfl, rfl⟩
  · intro p host ip h1 h2 hp
    simp [certSANs, h1, h2, hp]
  · intro p host h1 h2 hp
    simp [certSANs, h1, h2, hp]
  · intro p host san extras ip hp
    simp [certSANs, List.foldl_append, hp]
  · intro p host san extras hp
    simp [certSANs, List.foldl_append, hp]

/-- Witness for C5 at a non-loopback IP host and a non-loopback DNS
host. -/
theorem c5_witness :
    ((203:Nat) = 203 ∧ demoParseIP "203.0.113.5" = some (ipv4 203 0 113 5)) ∧
    certSANs demoParseIP "203.0.113.5" [] = ([], [ipv4 203 0 113 5]) ∧
    certSANs demoParseIP "webhook.example.test" [] = (["webhook.example.test"], []) := by
  refine ⟨⟨rfl, rfl⟩, ?_, ?_⟩
  · exact c5_san_classification.2.1 demoParseIP "203.0.113.5" (ipv4 203 0 113 5)
      (by decide) (by decide) rfl
  · exact c5_san_classification.2.2.1 demoParseIP "webhook.example.test"
      (by decide) (by decide) rfl

/-- Configuration with two webhooks, distinct paths and distinct callback
identities, exercising the handler-installation loop. -/
def twoWebhookConfig : AdmissionConfig Nat Unit :=
  { Name := "demo"
    KubeNamespace := ""
    KubeService := ""
    CallbackHost := "example.test"
    CallbackPort := 8443
    Webhooks :=
      [ { Rules := [], Callback := 0, FailurePolicy := "", Name := "", Path := "/a" },
        { Rules := [], Callback := 1, FailurePolicy := "", Name := "", Path := "/b" } ] }

/-- Path generator standing in for generateValidatePath: one fresh
deterministic validate path per loop iteration. -/
def demoGen : Nat → String :=
  fun i => "/validate-test-" ++ toString i

/-- C1, evaluation at the failing input: with two webhooks carrying
callbacks 0 and 1, the handler installed for the path of webhook 0
invokes callback 1, the callback of the other webhook — every installed
handler reads the shared range loop variable after the loop, so both
paths dispatch to the callback of the last webhook. -/
theorem c1_handlers_invoke_last_callback :
    twoWebhookConfig.Webhooks.map (fun w => (w.Path, w.Callback))
        = [("/a", 0), ("/b", 1)] ∧
    installedCallbackFor (setupAdmissionWebhooks demoGen twoWebhookConfig) "/a"
        = some 1 ∧
    installedCallbackFor (setupAdmissionWebhooks demoGen twoWebhookConfig) "/b"
        = some 1 := by
  refine ⟨rfl, ?_, ?_⟩ <;> rfl

/-- Configuration with a single webhook whose Path is unset, exercising
path synthesis. -/
def unsetPathConfig : AdmissionConfig Nat Unit :=
  { Name := "demo"
    KubeNamespace := ""
    KubeService := ""
    CallbackHost := "example.test"
    CallbackPort := 8443
    Webhooks :=
      [ { Rules := [], Callback := 0, FailurePolicy := "", Name := "", Path := "" } ] }

/-- C2, evaluation at the failing input: for a webhook with unset Path,
the handler is installed under the synthesized validate path, but the
Path assignment lands on the range copy of the list element, so the
registration object built afterwards from the same configuration still
sees the empty path: its callback URL is the bare host and port, not the
URL of the synthesized path. -/
theorem c2_synthesized_path_missing_from_registration :
    (setupAdmissionWebhooks demoGen unsetPathConfig).handlerPaths
        = ["/validate-test-0"] ∧
    (asValidatingAdmissionRegistration unsetPathConfig "ca").webhooks.map
        (fun v => v.clientConfig.url)
      = [some "https://example.test:8443"] ∧
    some (urlString "example.test" 8443 "/validate-test-0")
        ≠ some (urlString "example.test" 8443 "") := by
  refine ⟨rfl, rfl, ?_⟩
  decide

/-- JSON body holding an empty object, written with escaped braces. -/
def emptyObjectBody : String := "\x7b\x7d"

/-- Decoder stub for the C3 scenario: json.Unmarshal of an empty JSON
object succeeds and leaves the Request pointer nil. -/
def emptyObjectUnmarshal : String → Option AdmissionReview :=
  fun s => if s = emptyObjectBody then
    some { request := none, response := none } else none

/-- C3, evaluation at the failing input: the empty JSON object decodes
successfully into a review with no embedded request, the callback
returns successfully, and performValidation then dereferences the nil
Request pointer while building the response — the model result none:
the handler panics and no response is written. -/
theorem c3_nil_request_panics :
    emptyObjectUnmarshal emptyObjectBody
        = some { request := none, response := none } ∧
    performValidation emptyObjectUnmarshal (fun _ => true)
        (fun _ => .ok NewAllowRequest) emptyObjectBody
      = none := by
  exact ⟨rfl, rfl⟩

/-- Callback of the C7 scenario: always deny with code 403 and the fixed
rejection message, built through the response builder API. -/
def denyCallback : Option AdmissionRequest → Except String WebhookResponse :=
  fun _ => .ok ((NewRejectRequest.WithCode 403).WithMessage "denied for test")

/-- Denial outcome of the C7 scenario as it appears in the encoded
review: the correlation identifier of the request, allowed = false, and
the fixed code and message. -/
def deniedAdmissionResponse (uid : String) : AdmissionResponse :=
  { uid := uid, allowed := false
    result := { code := 403, message := "denied for test" } }

/-- C7: for every request body that decodes into a review with an
embedded request, the pipeline with the deny callback responds with HTTP
status 200, Content-Type application/json, and an encoded review whose
response carries the correlation identifier of the request, allowed =
false, and a result whose encoded JSON carries code 403 and exactly the
message denied for test. -/
theorem c7_denial_roundtrip (unmarshal : String → Option AdmissionReview)
    (marshalOk : AdmissionReview → Bool) (body : String)
    (review : AdmissionReview) (req : AdmissionRequest)
    (hu : unmarshal body = some review)
    (hreq : review.request = some req)
    (hm : marshalOk
      { review with response := some (deniedAdmissionResponse req.uid) } = true) :
    performValidation unmarshal marshalOk denyCallback body
      = some
        { status := 200
          contentType := some "application/json"
          body := some
            { review with response := some (deniedAdmissionResponse req.uid) } } ∧
    statusJsonCode (deniedAdmissionResponse req.uid).result = some 403 ∧
    statusJsonMessage (deniedAdmissionResponse req.uid).result
        = some "denied for test" := by
  refine ⟨?_, rfl, rfl⟩
  simp only [performValidation, hu, hreq, denyCallback, responseResult,
    NewRejectRequest, WebhookResponse.WithCode, WebhookResponse.WithMessage,
    deniedAdmissionResponse] at hm ⊢
  simp at hm ⊢
  simp [hm]

/-- Decoder stub for the C7 witness: a fixed body decodes to a review
with a request carrying a known correlation identifier. -/
def knownUidUnmarshal : String → Option AdmissionReview :=
  fun s => if s = "review-body" then
    some { request := some { uid := "uid-1" }, response := none } else none

/-- Witness for C7 at a concrete request with correlation identifier
uid-1. -/
theorem c7_witness :
    knownUidUnmarshal "review-body"
        = some { request := some { uid := "uid-1" }, response := none } ∧
    performValidation knownUidUnmarshal (fun _ => true) denyCallback "review-body"
      = some
        { status := 200
          contentType := some "application/json"
          body := some
            { request := some { uid := "uid-1" }
              response := some (deniedAdmissionResponse "uid-1") } } :=
  ⟨rfl,
    (c7_denial_roundtrip knownUidUnmarshal (fun _ => true) "review-body"
      { request := some { uid := "uid-1" }, response := none }
      { uid := "uid-1" } rfl rfl rfl).1⟩

/-- C8: a body that fails to decode is answered with the
internal-server-error response, and so is a request whose callback
returns an error; that response has status 500 with no Content-Type and
no body; and request handling is per-request — the outcome list of a
request sequence is the independent outcome of each request, so a
failing request leaves every later request unaffected. -/
theorem c8_request_failures_isolated
    (unmarshal : String → Option AdmissionReview)
    (marshalOk : AdmissionReview → Bool)
    (callback : Option AdmissionRequest → Except String WebhookResponse)
    (body : String) :
    (unmarshal body = none →
      performValidation unmarshal marshalOk callback body
        = some internalServerError) ∧
    (∀ (review : AdmissionReview) (msg : String),
      unmarshal body = some review → callback review.request = .error msg →
      performValidation unmarshal marshalOk callback body
        = some internalServerError) ∧
    (internalServerError.status = 500 ∧ internalServerError.contentType = none ∧
      internalServerError.body = none) ∧
    (∀ bodies : List String,
      handleRequests unmarshal marshalOk callback (body :: bodies)
        = performValidation unmarshal marshalOk callback body
            :: handleRequests unmarshal marshalOk callback bodies) := by
  refine ⟨?_, ?_, ⟨rfl, rfl, rfl⟩, ?_⟩
  · intro hu; simp [performValidation, hu]
  · intro review msg hu hc; simp [performValidation, hu, hc]
  · intro bodies; rfl

/-- Witness for C8 at a body that fails to parse and a callback that
fails. -/
theorem c8_witness :
    performValidation (fun _ => none) (fun _ => true)
        (fun _ => .ok NewAllowRequest) "not-json" = some internalServerError ∧
    performValidation emptyObjectUnmarshal (fun _ => true)
        (fun _ => .error "callback failed") emptyObjectBody
      = some internalServerError :=
  ⟨(c8_request_failures_isolated (fun _ => none) (fun _ => true)
      (fun _ => .ok NewAllowRequest) "not-json").1 rfl,
   (c8_request_failures_isolated emptyObjectUnmarshal (fun _ => true)
      (fun _ => .error "callback failed") emptyObjectBody).2.1
      { request := none, response := none } "callback failed" rfl rfl⟩

theorem b64CharVal_b64Char : ∀ n : Nat, n < 64 →
    b64CharVal (b64Char n) = some n := by decide

theorem b64Char_props : ∀ n : Nat, n < 64 →
    isB64Sym (b64Char n) = true ∧ b64Char n ≠ '\n' ∧ b64Char n ≠ '-' ∧
      b64Char n ≠ '=' := by decide

theorem pad_props : isB64Sym '=' = true ∧ ('=' : Char) ≠ '\n' ∧
    ('=' : Char) ≠ '-' := by decide

theorem b64Encode_chars : ∀ l : List Nat, (∀ x ∈ l, x < 256) →
    ∀ c ∈ b64Encode l, isB64Sym c = true ∧ c ≠ '\n' ∧ c ≠ '-' := by
  intro l
  induction l using b64Encode.induct with
  | case1 =>
    intro _ c hc
    simp [b64Encode] at hc
  | case2 a =>
    intro h c hc
    have ha : a < 256 := h a (by simp)
    simp only [b64Encode, List.mem_cons, List.not_mem_nil, or_false] at hc
    rcases hc with h1 | h1 | h1 | h1 <;> subst h1
    · exact (b64Char_props _ (by omega)).imp id (fun p => ⟨p.1, p.2.1⟩)
    · exact (b64Char_props _ (by omega)).imp id (fun p => ⟨p.1, p.2.1⟩)
    · exact ⟨pad_props.1, pad_props.2.1, pad_props.2.2⟩
    · exact ⟨pad_props.1, pad_props.2.1, pad_props.2.2⟩
  | case3 a b =>
    intro h c hc
    have ha : a < 256 := h a (by simp)
    have hbb : b < 256 := h b (by simp)
    simp only [b64Encode, List.mem_cons, List.not_mem_nil, or_false] at hc
    rcases hc with h1 | h1 | h1 | h1 <;> subst h1
    · exact (b64Char_props _ (by omega)).imp id (fun p => ⟨p.1, p.2.1⟩)
    · exact (b64Char_props _ (by omega)).imp id (fun p => ⟨p.1, p.2.1⟩)
    · exact (b64Char_props _ (by omega)).imp id (fun p => ⟨p.1, p.2.1⟩)
    · exact ⟨pad_props.1, pad_props.2.1, pad_props.2.2⟩
  | case4 a b c rest ih =>
    intro h x hx
    have ha : a < 256 := h a (by simp)
    have hbb : b < 256 := h b (by simp)
    have hcc : c < 256 := h c (by simp)
    simp only [b64Encode, List.mem_cons] at hx
    rcases hx with h1 | h1 | h1 | h1 | h1
    · subst h1; exact (b64Char_props _ (by omega)).imp id (fun p => ⟨p.1, p.2.1⟩)
    · subst h1; exact (b64Char_props _ (by omega)).imp id (fun p => ⟨p.1, p.2.1⟩)
    · subst h1; exact (b64Char_props _ (by omega)).imp id (fun p => ⟨p.1, p.2.1⟩)
    · subst h1; exact (b64Char_props _ (by omega)).imp id (fun p => ⟨p.1, p.2.1⟩)
    · exact ih (fun y hy => h y (by simp [hy])) x h1

theorem b64Decode_b64Encode : ∀ l : List Nat, (∀ x ∈ l, x < 256) →
    b64Decode (b64Encode l) = some l := by
  intro l
  induction l using b64Encode.induct with
  | case1 => intro _; rfl
  | case2 a =>
    intro h
    have ha : a < 256 := h a (by simp)
    simp only [b64Encode, b64Decode,
      b64CharVal_b64Char _ (show a / 4 < 64 by omega),
      b64CharVal_b64Char _ (show a % 4 * 16 < 64 by omega)]
    have h1 : a / 4 * 4 + a % 4 * 16 / 16 = a := by omega
    rw [h1]
    simp
  | case3 a b =>
    intro h
    have ha : a < 256 := h a (by simp)
    have hbb : b < 256 := h b (by simp)
    have hne : b64Char (b % 16 * 4) ≠ '=' :=
      (b64Char_props _ (by omega)).2.2.2
    simp only [b64Encode, b64Decode,
      b64CharVal_b64Char _ (show a / 4 < 64 by omega),
      b64CharVal_b64Char _ (show a % 4 * 16 + b / 16 < 64 by omega),
      b64CharVal_b64Char _ (show b % 16 * 4 < 64 by omega),
      if_neg hne]
    have h1 : a / 4 * 4 + (a % 4 * 16 + b / 16) / 16 = a := by omega
    have h2 : (a % 4 * 16 + b / 16) % 16 * 16 + b % 16 * 4 / 4 = b := by omega
    rw [h1, h2]
    simp
  | case4 a b c rest ih =>
    intro h
    have ha : a < 256 := h a (by simp)
    have hbb : b < 256 := h b (by simp)
    have hcc : c < 256 := h c (by simp)
    have hrest := ih (fun y hy => h y (by simp [hy]))
    have hne3 : b64Char (b % 16 * 4 + c / 64) ≠ '=' :=
      (b64Char_props _ (by omega)).2.2.2
    have hne4 : b64Char (c % 64) ≠ '=' :=
      (b64Char_props _ (by omega)).2.2.2
    simp only [b64Encode, b64Decode,
      b64CharVal_b64Char _ (show a / 4 < 64 by omega),
      b64CharVal_b64Char _ (show a % 4 * 16 + b / 16 < 64 by omega),
      b64CharVal_b64Char _ (show b % 16 * 4 + c / 64 < 64 by omega),
      b64CharVal_b64Char _ (show c % 64 < 64 by omega),
      if_neg hne3, if_neg hne4, hrest]
    have h1 : a / 4 * 4 + (a % 4 * 16 + b / 16) / 16 = a := by omega
    have h2 : (a % 4 * 16 + b / 16) % 16 * 16 + (b % 16 * 4 + c / 64) / 4 = b := by
      omega
    have h3 : (b % 16 * 4 + c / 64) % 4 * 64 + c % 64 = c := by omega
    rw [h1, h2, h3]

theorem takeB64_cons_newline (rest : List Char) :
    takeB64 ('\n' :: rest) = takeB64 rest := by
  simp [takeB64]

theorem takeB64_collect : ∀ s rest : List Char,
    (∀ c ∈ s, isB64Sym c = true ∧ c ≠ '\n') →
    takeB64 (s ++ rest) = (s ++ (takeB64 rest).1, (takeB64 rest).2) := by
  intro s
  induction s with
  | nil => intro rest _; simp
  | cons c s ih =>
    intro rest h
    have hc := h c (by simp)
    have hrec := ih rest (fun x hx => h x (by simp [hx]))
    simp [takeB64, hc.2, hc.1, hrec]

theorem takeB64_stop (t : List Char) : takeB64 ('-' :: t) = ([], '-' :: t) := by
  simp [takeB64, isB64Sym, b64CharVal]

theorem takeB64_wrapChunks : ∀ (n : Nat) (s : List Char), s.length ≤ n →
    (∀ c ∈ s, isB64Sym c = true ∧ c ≠ '\n') →
    ∀ rest : List Char, takeB64 rest = ([], rest) →
    takeB64 (wrapChunks s ++ rest) = (s, rest) := by
  intro n
  induction n with
  | zero =>
    intro s hs _ rest hr
    have hnil : s = [] := List.eq_nil_of_length_eq_zero (Nat.le_zero.mp hs)
    subst hnil
    simpa [wrapChunks] using hr
  | succ n ih =>
    intro s hlen hchars rest hr
    by_cases hempty : s = []
    · subst hempty
      simpa [wrapChunks] using hr
    · by_cases h64 : s.length ≤ 64
      · rw [wrapChunks, if_neg hempty, if_pos h64, List.append_assoc,
          List.singleton_append, takeB64_collect s _ hchars,
          takeB64_cons_newline, hr]
        simp
      · have htake : ∀ c ∈ s.take 64, isB64Sym c = true ∧ c ≠ '\n' :=
          fun c hc => hchars c (List.mem_of_mem_take hc)
        have hdrop : ∀ c ∈ s.drop 64, isB64Sym c = true ∧ c ≠ '\n' :=
          fun c hc => hchars c (List.mem_of_mem_drop hc)
        have hlen2 : (s.drop 64).length ≤ n := by
          simp only [List.length_drop]
          omega
        rw [wrapChunks, if_neg hempty, if_neg h64, List.append_assoc,
          List.cons_append, takeB64_collect (s.take 64) _ htake,
          takeB64_cons_newline, ih (s.drop 64) hlen2 hdrop rest hr]
        simp [List.take_append_drop]

theorem expectChars_append : ∀ p s : List Char, expectChars p (p ++ s) = some s := by
  intro p
  induction p with
  | nil => intro s; rfl
  | cons c p ih => intro s; simp [expectChars, ih]

theorem takeType_append : ∀ t r : List Char, (∀ c ∈ t, c ≠ '-') →
    takeType (t ++ '-' :: r) = some (t, '-' :: r) := by
  intro t
  induction t with
  | nil => intro r _; simp [takeType]
  | cons c t ih =>
    intro r h
    have hc := h c (by simp)
    simp [takeType, hc, ih r (fun x hx => h x (by simp [hx]))]

theorem pemDecode_encodeBlock (ty : List Char) (hty : ∀ c ∈ ty, c ≠ '-')
    (b : List Nat) (hb : ∀ x ∈ b, x < 256) :
    pemDecode (pemEncodeBlock ty b) = some (ty, b) := by
  have hchars : ∀ c ∈ b64Encode b, isB64Sym c = true ∧ c ≠ '\n' := by
    intro c hc
    exact ⟨(b64Encode_chars b hb c hc).1, (b64Encode_chars b hb c hc).2.1⟩
  have hdnl : ∀ X : List Char,
      dashesNl ++ X = '-' :: ("----\n".toList ++ X) := fun _ => rfl
  have hend : ∀ Z : List Char,
      endMarker ++ Z = '-' :: ("----END ".toList ++ Z) := fun _ => rfl
  have hscan : takeB64 (wrapChunks (b64Encode b)
      ++ (endMarker ++ (ty ++ dashesNl)))
      = (b64Encode b, endMarker ++ (ty ++ dashesNl)) := by
    refine takeB64_wrapChunks (b64Encode b).length _ le_rfl hchars _ ?_
    rw [hend (ty ++ dashesNl)]
    exact takeB64_stop _
  have htype : takeType (ty ++ (dashesNl ++ (wrapChunks (b64Encode b)
      ++ (endMarker ++ (ty ++ dashesNl)))))
      = some (ty, dashesNl ++ (wrapChunks (b64Encode b)
        ++ (endMarker ++ (ty ++ dashesNl)))) := by
    rw [hdnl]
    exact takeType_append ty _ hty
  have hself : expectChars dashesNl dashesNl = some [] := by
    have := expectChars_append dashesNl []
    simpa using this
  simp only [pemEncodeBlock, pemDecode, List.append_assoc,
    Option.bind_eq_bind, Option.some_bind, expectChars_append, htype, hscan,
    hself, b64Decode_b64Encode b hb]
  simp

/-- C10: PEM encoding of a certificate or a private key succeeds with no
error, the produced text is a PEM block with type CERTIFICATE
respectively RSA PRIVATE KEY, and standard PEM decoding of that text
returns exactly the original DER bytes. -/
theorem c10_pem_roundtrip (b : List Nat) (hb : ∀ x ∈ b, x < 256) :
    (∃ s, pemEncodeCertificate b = .ok s ∧
      pemDecode s = some ("CERTIFICATE".toList, b)) ∧
    (∃ s, pemEncodePrivateKey b = .ok s ∧
      pemDecode s = some ("RSA PRIVATE KEY".toList, b)) := by
  refine ⟨⟨pemEncodeBlock "CERTIFICATE".toList b, rfl, ?_⟩,
    ⟨pemEncodeBlock "RSA PRIVATE KEY".toList b, rfl, ?_⟩⟩
  · exact pemDecode_encodeBlock _ (by decide) b hb
  · exact pemDecode_encodeBlock _ (by decide) b hb

/-- Witness for C10 at a concrete DER byte list. -/
theorem c10_witness :
    (∀ x ∈ ([48, 130, 1, 222] : List Nat), x < 256) ∧
    (∃ s, pemEncodeCertificate [48, 130, 1, 222] = .ok s ∧
      pemDecode s = some ("CERTIFICATE".toList, [48, 130, 1, 222])) ∧
    (∃ s, pemEncodePrivateKey [48, 130, 1, 222] = .ok s ∧
      pemDecode s = some ("RSA PRIVATE KEY".toList, [48, 130, 1, 222])) :=
  ⟨by decide, (c10_pem_roundtrip [48, 130, 1, 222] (by decide)).1,
    (c10_pem_roundtrip [48, 130, 1, 222] (by decide)).2⟩

end Chimera
